import Mathlib

/-!
Shallow embedding of the wvsee data-access layer (`src/lib/weaviate.ts`) and
the collection API route handler (`src/app/api/collection/[name]/route.ts`).

Network calls (`fetch`, and the JSON bodies they yield) are modelled as oracle
parameters: `executeQuery` and `executeAggregateQuery` become functions from
the GraphQL query string to the outcome of the call, where `Except.error msg`
stands for the promise rejecting (a thrown `Error` with message `msg`) and
`Except.ok v` stands for the parsed JSON body `v`.  Thrown JavaScript errors
are modelled throughout as `Except.error` carrying the error message.
-/

set_option autoImplicit false

namespace Wvsee

/-- Outcome of one raw `fetch` call: either the promise rejects with an error
(network failure), or an HTTP response arrives with its `ok` flag, its
`statusText`, and the parsed JSON body.  (A JSON parse failure of the body
would propagate exactly like `netError`; no claim distinguishes the two.) -/
inductive FetchOutcome (β : Type) where
  | netError (msg : String)
  | response (ok : Bool) (statusText : String) (body : β)
  deriving DecidableEq

/-- One row of a collection.  The TypeScript type is
`CollectionData = Record<string, unknown>`; the code never inspects row
contents, so rows are represented as association lists from property name to a
value rendered as a string. -/
abbrev CollectionData := List (String × String)

/-- JavaScript property access `m[key]` on a JSON object, modelled on an
association list (keys of a parsed JSON object are unique, so first match
suffices). -/
def recordGet {β : Type} (m : List (String × β)) (key : String) : Option β :=
  (m.find? (fun kv => kv.1 = key)).map (fun kv => kv.2)

/-- The `meta` object of one Aggregate entry (`{ count }`). -/
structure AggregateMeta where
  count : Nat
  deriving DecidableEq

/-- One entry of `data.Aggregate[className]`. -/
structure AggregateEntry where
  meta : AggregateMeta
  deriving DecidableEq

/-- The `data` object of an Aggregate response: a mapping from class name to
entries. -/
structure AggregateData where
  Aggregate : List (String × List AggregateEntry)
  deriving DecidableEq

/-- The shape of the GraphQL `/v1/graphql` Aggregate query response
(`AggregateResponse` in `weaviate.ts`). -/
structure AggregateResponse where
  data : AggregateData
  deriving DecidableEq

/-- The `data` object of a Get response, as actually inspected at runtime:
`getCollectionData` guards with `response?.data?.Get`, so the `Get` field may
be absent (`none`). -/
structure GetData where
  Get : Option (List (String × List CollectionData))
  deriving DecidableEq

/-- A runtime Get-query response body: the `data` field may be absent. -/
structure ExecResponse where
  data : Option GetData
  deriving DecidableEq

/-- A property as it appears in a `/v1/schema` class declaration
(only `name` is read by this code). -/
structure SchemaProperty where
  name : String
  deriving DecidableEq

/-- One class of the `/v1/schema` response (`WeaviateClass` in
`weaviate.ts`). -/
structure WeaviateClass where
  «class» : String
  description : Option String
  properties : Option (List SchemaProperty)
  deriving DecidableEq

/-- The complete `/v1/schema` response (`classes` may be absent). -/
structure WeaviateSchemaResponse where
  classes : Option (List WeaviateClass)
  deriving DecidableEq

/-- An entry of `CollectionInfo.properties`: `{name, description?, dataType?}`.
`getCollections` populates only `name`, so the other two fields default to
`none`. -/
structure PropertyInfo where
  name : String
  description : Option String := none
  dataType : Option (List String) := none
  deriving DecidableEq

/-- The `CollectionInfo` interface of `weaviate.ts`. -/
structure CollectionInfo where
  name : String
  description : Option String
  count : Nat
  properties : List PropertyInfo
  deriving DecidableEq

/-- A property as passed to `getCollectionData` by the route handler:
`{name, dataType}` with `dataType` a list of type names. -/
structure GetProperty where
  name : String
  dataType : List String
  deriving DecidableEq

/-- The optional sort directive the GET handler assembles from the
`sortProperty`/`sortOrder` query parameters. -/
structure SortDirective where
  property : String
  order : String
  deriving DecidableEq

/-- The GraphQL query string built by `getCollectionData` from the class name
and the property names (the backtick template of `weaviate.ts`, lines 3-9). -/
def getCollectionDataQuery (className : String) (names : List String) : String :=
  "\x7b\n      Get \x7b\n        " ++ className ++ " \x7b\n          "
    ++ String.intercalate "\n" names
    ++ "\n        \x7d\n      \x7d\n    \x7d"

/-- Embedding of `getCollectionData` (`weaviate.ts` lines 1-21).  `exec` is
the behaviour of `executeQuery` keyed by the query string.  The enclosing
`try`/`catch` logs and rethrows, so it is the identity on outcomes.  The
TypeScript declaration lists exactly two parameters (`className`,
`properties`); a third argument supplied at a call site is discarded by
JavaScript call semantics. -/
def getCollectionData (className : String) (properties : List GetProperty)
    (exec : String → Except String (Option ExecResponse)) :
    Except String (List CollectionData) :=
  let query := getCollectionDataQuery className (properties.map (fun p => p.name))
  match exec query with
  | .error msg => .error msg
  | .ok response =>
      match (response.bind (fun r => r.data)).bind (fun d => d.Get) with
      | none => .error "Invalid response structure from Weaviate"
      | some g => .ok ((recordGet g className).getD [])

/-- The GraphQL aggregate query string built by `getObjectCount`
(`weaviate.ts` lines 277-286). -/
def aggregateQueryFor (className : String) : String :=
  "\n  \x7b\n    Aggregate \x7b\n      " ++ className
    ++ " \x7b\n        meta \x7b\n          count\n        \x7d\n      \x7d\n    \x7d\n  \x7d"

/-- Embedding of `getObjectCount` (`weaviate.ts` lines 276-303).  `agg` is the
behaviour of `executeAggregateQuery` keyed by the query string; `.ok none`
models a JSON-`null` body (guarded by `aggregateResponse?.`).  A thrown error
is caught and the count reported as 0. -/
def getObjectCount (className : String)
    (agg : String → Except String (Option AggregateResponse)) : Nat :=
  match agg (aggregateQueryFor className) with
  | .error _ => 0
  | .ok none => 0
  | .ok (some aggregateResponse) =>
      let aggregateData := (recordGet aggregateResponse.data.Aggregate className).getD []
      ((aggregateData.head?).map (fun e => e.meta.count)).getD 0

/-- Embedding of `getCollections` (`weaviate.ts` lines 196-235).
`schemaFetch` is the outcome of `fetch(WEAVIATE_URL + "/v1/schema")` with its
body already parsed; `agg` is the behaviour of `executeAggregateQuery`.  The
first component is the returned value or the propagated error (the enclosing
`try`/`catch` rethrows); the second component records, in order, the aggregate
query issued for each class — it instruments which aggregate queries the call
would send. -/
def getCollections (schemaFetch : FetchOutcome WeaviateSchemaResponse)
    (agg : String → Except String (Option AggregateResponse)) :
    Except String (List CollectionInfo) × List String :=
  match schemaFetch with
  | .netError msg => (.error msg, [])
  | .response ok statusText schema =>
      if ok = false then
        (.error ("Failed to fetch schema: " ++ statusText), [])
      else
        let classes := schema.classes.getD []
        (.ok (classes.map (fun weavClass =>
          { name := weavClass.«class»
            description := weavClass.description
            count := getObjectCount weavClass.«class» agg
            properties := (weavClass.properties.getD []).map
              (fun p => { name := p.name }) })),
         classes.map (fun weavClass => aggregateQueryFor weavClass.«class»))

/-- JavaScript `String.prototype.split` with a one-character separator, on
lists of characters: `splitChars sep l` is the list of maximal sep-free
chunks of `l` (never empty; `[[]]` on the empty list, exactly as in JS). -/
def splitChars (sep : Char) : List Char → List (List Char)
  | [] => [[]]
  | c :: cs =>
      let r := splitChars sep cs
      if c = sep then [] :: r
      else (c :: r.headD []) :: r.tail

/-- JavaScript `url.split(sep)` for a `String`. -/
def jsSplit (sep : Char) (s : String) : List String :=
  (splitChars sep s.data).map String.mk

/-- JavaScript `xs.split(sep).pop()`: the last chunk (`split` never yields an
empty array, so `pop` never yields `undefined`; the default is unreachable). -/
def splitPop (sep : Char) (s : String) : String :=
  (jsSplit sep s).getLastD ""

/-- Body of a `NextResponse.json(...)` produced by the route handlers. -/
inductive RouteBody where
  | errMsg (error : String)
  | errDetails (error : String) (details : String)
  | success
  | rows (data : List CollectionData)
  deriving DecidableEq

/-- An HTTP response produced by the route handlers: status code and JSON
body (`NextResponse.json` defaults the status to 200). -/
structure RouteResponse where
  status : Nat
  body : RouteBody
  deriving DecidableEq

/-- A `NextRequest` as the route handlers consume it: `request.url` is the
full href `scheme_host ++ pathname ++ search`, and `new URL(request.url)`
recovers `pathname`, `search` and the parsed `searchParams`.  (`searchParams`
is the web URL parser's parse of `search`; no claim depends on that relation,
so both are carried as data.) -/
structure NextRequest where
  scheme_host : String
  pathname : String
  search : String
  searchParams : List (String × String)

/-- The full `request.url` string. -/
def NextRequest.url (r : NextRequest) : String :=
  r.scheme_host ++ r.pathname ++ r.search

/-- JavaScript `url.searchParams.get(key)`: the first value bound to `key`,
or `null` (`none`) when absent. -/
def searchParamsGet (ps : List (String × String)) (key : String) : Option String :=
  (ps.find? (fun kv => kv.1 = key)).map (fun kv => kv.2)

/-- Embedding of the DELETE route handler (`route.ts` lines 9-34).
`deleteCollection` is imported from the data-access layer but its definition
is not part of the handler; it is passed as the behaviour oracle `del`.  The
second component records the name passed to `deleteCollection`, or `none`
when `deleteCollection` is never invoked.  Note the name is extracted from
the FULL `request.url` via `request.url.split('/').pop()`. -/
def DELETE (url : String) (del : String → Except String Unit) :
    RouteResponse × Option String :=
  let name := splitPop '/' url
  if name = "" then
    (⟨400, .errMsg "Collection name is required"⟩, none)
  else
    match del name with
    | .ok _ => (⟨200, .success⟩, some name)
    | .error msg => (⟨500, .errDetails "Failed to delete collection" msg⟩, some name)

/-- Embedding of the GET route handler (`route.ts` lines 36-87).  The name is
extracted from `new URL(request.url).pathname.split('/').pop()`.  The second
component records the class name and property list passed to
`getCollectionData`, or `none` when `getCollectionData` is never invoked.
The sort directive assembled from `sortProperty`/`sortOrder` is the third
argument of the `getCollectionData` call site, which the callee's
two-parameter declaration discards. -/
def GET (request : NextRequest)
    (schemaFetch : FetchOutcome WeaviateSchemaResponse)
    (agg : String → Except String (Option AggregateResponse))
    (exec : String → Except String (Option ExecResponse)) :
    RouteResponse × Option (String × List GetProperty) :=
  let name := splitPop '/' request.pathname
  let sortProperty := searchParamsGet request.searchParams "sortProperty"
  let sortOrder := searchParamsGet request.searchParams "sortOrder"
  if name = "" then
    (⟨400, .errMsg "Collection name is required"⟩, none)
  else
    match (getCollections schemaFetch agg).1 with
    | .error msg => (⟨500, .errDetails "Failed to fetch data" msg⟩, none)
    | .ok collections =>
        match collections.find? (fun c => c.name = name) with
        | none => (⟨404, .errMsg "Collection not found"⟩, none)
        | some collectionInfo =>
            let props := collectionInfo.properties.map
              (fun prop => GetProperty.mk prop.name (prop.dataType.getD ["string"]))
            let sortDirective : Option SortDirective :=
              match sortProperty, sortOrder with
              | some sp, some so => if sp ≠ "" ∧ so ≠ "" then some ⟨sp, so⟩ else none
              | _, _ => none
            match getCollectionData name props exec with
            | .ok data => (⟨200, .rows data⟩, some (name, props))
            | .error msg => (⟨500, .errDetails "Failed to fetch data" msg⟩, some (name, props))

/-! Helper lemmas -/

/-- The default of `getLastD` is irrelevant on a non-empty list. -/
theorem getLastD_irrel {α : Type} (l : List α) (h : l ≠ []) (d e : α) :
    l.getLastD d = l.getLastD e := by
  cases l with
  | nil => exact absurd rfl h
  | cons a t => rw [List.getLastD_cons, List.getLastD_cons]

/-- A failing aggregate call is masked to a zero count by `getObjectCount`. -/
theorem getObjectCount_of_error (className : String)
    (agg : String → Except String (Option AggregateResponse)) (msg : String)
    (h : agg (aggregateQueryFor className) = .error msg) :
    getObjectCount className agg = 0 := by
  simp [getObjectCount, h]

/-! Claim theorems -/

/-- C4: if the schema fetch returns a non-success HTTP status, `getCollections`
fails with an error carrying the HTTP status text, issues no per-class
aggregate queries, and returns no `CollectionInfo` entries. -/
theorem getCollections_schema_http_failure (statusText : String)
    (schema : WeaviateSchemaResponse)
    (agg : String → Except String (Option AggregateResponse)) :
    getCollections (.response false statusText schema) agg
      = (.error ("Failed to fetch schema: " ++ statusText), []) := rfl

/-- C2: for every schema response declaring N classes, `getCollections`
returns exactly N entries in declaration order, each carrying that class's
name, description, property names, and its fetched object count. -/
theorem getCollections_one_entry_per_class (statusText : String)
    (schema : WeaviateSchemaResponse)
    (agg : String → Except String (Option AggregateResponse)) :
    ∃ result : List CollectionInfo,
      (getCollections (.response true statusText schema) agg).1 = .ok result ∧
      result.length = (schema.classes.getD []).length ∧
      ∀ i : Fin result.length, ∃ hi : i.val < (schema.classes.getD []).length,
        (result.get i).name = ((schema.classes.getD []).get ⟨i.val, hi⟩).«class» ∧
        (result.get i).description
          = ((schema.classes.getD []).get ⟨i.val, hi⟩).description ∧
        (result.get i).properties.map (fun p => p.name)
          = (((schema.classes.getD []).get ⟨i.val, hi⟩).properties.getD []).map
              (fun p => p.name) ∧
        (result.get i).count
          = getObjectCount ((schema.classes.getD []).get ⟨i.val, hi⟩).«class» agg := by
  refine ⟨_, rfl, by simp [getCollections], ?_⟩
  intro i
  have hi : i.val < (schema.classes.getD []).length := by
    have := i.isLt
    simpa [getCollections] using this
  refine ⟨hi, ?_, ?_, ?_, ?_⟩ <;>
    simp [getCollections, List.get_eq_getElem, List.getElem_map, List.map_map,
      Function.comp]

/-- C1: if the aggregate query for class X fails, `getCollections` still
succeeds with one entry per declared class, and the entry for X carries
count 0. -/
theorem getCollections_masks_failed_count (statusText : String)
    (schema : WeaviateSchemaResponse)
    (agg : String → Except String (Option AggregateResponse))
    (x : String) (msg : String)
    (hagg : agg (aggregateQueryFor x) = .error msg) :
    ∃ result : List CollectionInfo,
      (getCollections (.response true statusText schema) agg).1 = .ok result ∧
      result.length = (schema.classes.getD []).length ∧
      ∀ info ∈ result, info.name = x → info.count = 0 := by
  refine ⟨_, rfl, by simp [getCollections], ?_⟩
  intro info hinfo hname
  simp only [getCollections, List.mem_map] at hinfo
  obtain ⟨c, hc, rfl⟩ := hinfo
  simp only at hname ⊢
  rw [hname]
  exact getObjectCount_of_error x agg msg hagg

/-- Aggregate oracle that always throws (for the C1 witness). -/
def aggFail : String → Except String (Option AggregateResponse) :=
  fun _ => .error "boom"

/-- Schema declaring a single class `Bad` (for the C1 witness). -/
def schemaOneBad : WeaviateSchemaResponse := ⟨some [⟨"Bad", none, some []⟩]⟩

/-- Witness for C1 at a concrete schema and a concretely failing aggregate
oracle. -/
theorem getCollections_masks_failed_count_witness :
    aggFail (aggregateQueryFor "Bad") = .error "boom" ∧
    ∃ result : List CollectionInfo,
      (getCollections (.response true "OK" schemaOneBad) aggFail).1 = .ok result ∧
      result.length = (schemaOneBad.classes.getD []).length ∧
      ∀ info ∈ result, info.name = "Bad" → info.count = 0 :=
  ⟨rfl, getCollections_masks_failed_count "OK" schemaOneBad aggFail "Bad" "boom" rfl⟩

/-- C3: the `sortProperty`/`sortOrder` request parameters (and the raw query
string) have no influence on the GET handler's outcome: for any two parameter
assignments the handler issues the same outbound query (the equality holds for
every `exec` oracle, keyed by the query string) and produces the same
response and the same `getCollectionData` call. -/
theorem GET_ignores_sort_params (scheme_host pathname : String)
    (search1 search2 : String) (ps1 ps2 : List (String × String))
    (schemaFetch : FetchOutcome WeaviateSchemaResponse)
    (agg : String → Except String (Option AggregateResponse))
    (exec : String → Except String (Option ExecResponse)) :
    GET ⟨scheme_host, pathname, search1, ps1⟩ schemaFetch agg exec
      = GET ⟨scheme_host, pathname, search2, ps2⟩ schemaFetch agg exec := rfl

/-- C5: when `executeQuery` yields a response lacking the `data.Get` envelope
(response `null`, `data` missing, or `Get` missing), `getCollectionData`
fails with a propagated error instead of returning an empty or partial
sequence. -/
theorem getCollectionData_invalid_envelope (className : String)
    (properties : List GetProperty)
    (exec : String → Except String (Option ExecResponse))
    (response : Option ExecResponse)
    (hexec : exec (getCollectionDataQuery className (properties.map (fun p => p.name)))
      = .ok response)
    (hshape : (response.bind (fun r => r.data)).bind (fun d => d.Get) = none) :
    getCollectionData className properties exec
      = .error "Invalid response structure from Weaviate" := by
  simp [getCollectionData, hexec, hshape]

/-- Execute oracle answering every query with a JSON `null` body (for the C5
witness). -/
def execNull : String → Except String (Option ExecResponse) :=
  fun _ => .ok none

/-- Witness for C5 at a concrete class, property list and oracle. -/
theorem getCollectionData_invalid_envelope_witness :
    execNull (getCollectionDataQuery "Article"
        (([⟨"title", ["string"]⟩] : List GetProperty).map (fun p => p.name)))
      = .ok none ∧
    (((none : Option ExecResponse)).bind (fun r => r.data)).bind (fun d => d.Get)
      = none ∧
    getCollectionData "Article" [⟨"title", ["string"]⟩] execNull
      = .error "Invalid response structure from Weaviate" :=
  ⟨rfl, rfl, getCollectionData_invalid_envelope "Article" _ execNull none rfl rfl⟩

/-- C6: when `executeQuery` yields a well-formed envelope, `getCollectionData`
returns `data.Get[className]`, or the empty sequence when that key is
absent. -/
theorem getCollectionData_returns_get_field (className : String)
    (properties : List GetProperty)
    (exec : String → Except String (Option ExecResponse))
    (response : Option ExecResponse)
    (g : List (String × List CollectionData))
    (hexec : exec (getCollectionDataQuery className (properties.map (fun p => p.name)))
      = .ok response)
    (hshape : (response.bind (fun r => r.data)).bind (fun d => d.Get) = some g) :
    getCollectionData className properties exec
      = .ok ((recordGet g className).getD []) := by
  simp [getCollectionData, hexec, hshape]

/-- Execute oracle answering every query with the mocked response
`data.Get.Article = [[("title", "A")]]` (for the C6 witness). -/
def articleExec : String → Except String (Option ExecResponse) :=
  fun _ => .ok (some ⟨some ⟨some [("Article", [[("title", "A")]])]⟩⟩)

/-- Witness for C6: the spec's concrete example,
`getCollectionData("Article", [(name := title)])` against the mocked response
returns the single row `title = A`. -/
theorem getCollectionData_returns_get_field_witness :
    getCollectionData "Article" [⟨"title", ["string"]⟩] articleExec
      = .ok [[("title", "A")]] :=
  getCollectionData_returns_get_field "Article" [⟨"title", ["string"]⟩]
    articleExec _ _ rfl rfl

/-- C7: a GET request whose (non-empty) collection name is not among the names
returned by `getCollections` is answered with HTTP 404 and body
`error = "Collection not found"`, and `getCollectionData` is never invoked
(the trace component is `none`). -/
theorem GET_unknown_collection_404 (request : NextRequest)
    (schemaFetch : FetchOutcome WeaviateSchemaResponse)
    (agg : String → Except String (Option AggregateResponse))
    (exec : String → Except String (Option ExecResponse))
    (collections : List CollectionInfo)
    (hname : splitPop '/' request.pathname ≠ "")
    (hcols : (getCollections schemaFetch agg).1 = .ok collections)
    (hunknown : ∀ c ∈ collections, c.name ≠ splitPop '/' request.pathname) :
    GET request schemaFetch agg exec
      = (⟨404, .errMsg "Collection not found"⟩, none) := by
  have hfind : collections.find? (fun c => c.name = splitPop '/' request.pathname)
      = none := by
    rw [List.find?_eq_none]
    intro c hc
    simpa using hunknown c hc
  simp [GET, hname, hcols, hfind]

/-- Schema declaring no classes (for the C7 witness). -/
def schemaEmpty : WeaviateSchemaResponse := ⟨some []⟩

/-- Aggregate oracle answering with a JSON `null` body (for the C7 and C9
witnesses). -/
def aggNull : String → Except String (Option AggregateResponse) :=
  fun _ => .ok none

/-- Execute oracle answering with an empty `data.Get` object (for the C7 and
C9 witnesses). -/
def execEmptyGet : String → Except String (Option ExecResponse) :=
  fun _ => .ok (some ⟨some ⟨some []⟩⟩)

/-- Request for `/api/collection/Article` (for the C7 witness). -/
def reqArticle : NextRequest :=
  ⟨"http://localhost:3000", "/api/collection/Article", "", []⟩

/-- Witness for C7 at a concrete request against an empty catalog. -/
theorem GET_unknown_collection_404_witness :
    splitPop '/' reqArticle.pathname ≠ "" ∧
    (getCollections (.response true "OK" schemaEmpty) aggNull).1 = .ok [] ∧
    GET reqArticle (.response true "OK" schemaEmpty) aggNull execEmptyGet
      = (⟨404, .errMsg "Collection not found"⟩, none) :=
  ⟨by decide, rfl,
    GET_unknown_collection_404 reqArticle (.response true "OK" schemaEmpty)
      aggNull execEmptyGet [] (by decide) rfl (by simp)⟩

/-- C8: a DELETE request whose extracted last path segment is empty is
answered with HTTP 400, and `deleteCollection` is never invoked (the trace
component is `none`). -/
theorem DELETE_missing_name_400 (url : String)
    (del : String → Except String Unit)
    (hname : splitPop '/' url = "") :
    DELETE url del = (⟨400, .errMsg "Collection name is required"⟩, none) := by
  simp [DELETE, hname]

/-- Delete oracle that always succeeds (for the C8 witness). -/
def delOk : String → Except String Unit := fun _ => .ok ()

/-- Witness for C8 at the concrete URL `DELETE /api/collection/`. -/
theorem DELETE_missing_name_400_witness :
    splitPop '/' "http://localhost:3000/api/collection/" = "" ∧
    DELETE "http://localhost:3000/api/collection/" delOk
      = (⟨400, .errMsg "Collection name is required"⟩, none) :=
  ⟨by decide, DELETE_missing_name_400 _ delOk (by decide)⟩

/-- C9: every `CollectionInfo` built by `getCollections` carries properties
with only the `name` field populated (`description` and `dataType` are
`none`), and consequently the GET handler passes `dataType = ["string"]` for
every property handed to `getCollectionData`. -/
theorem collections_properties_name_only
    (schemaFetch : FetchOutcome WeaviateSchemaResponse)
    (agg : String → Except String (Option AggregateResponse))
    (request : NextRequest)
    (exec : String → Except String (Option ExecResponse)) :
    (∀ result, (getCollections schemaFetch agg).1 = .ok result →
      ∀ info ∈ result, ∀ p ∈ info.properties,
        p.description = none ∧ p.dataType = none) ∧
    (∀ className props,
      (GET request schemaFetch agg exec).2 = some (className, props) →
      ∀ gp ∈ props, gp.dataType = ["string"]) := by
  have part1 : ∀ result, (getCollections schemaFetch agg).1 = .ok result →
      ∀ info ∈ result, ∀ p ∈ info.properties,
        p.description = none ∧ p.dataType = none := by
    intro result hres info hinfo p hp
    cases schemaFetch with
    | netError msg => simp [getCollections] at hres
    | response ok statusText schema =>
        cases ok with
        | false => simp [getCollections] at hres
        | true =>
            simp only [getCollections] at hres
            simp only [Bool.true_eq_false, if_false, Except.ok.injEq] at hres
            subst hres
            simp only [List.mem_map] at hinfo
            obtain ⟨c, hc, rfl⟩ := hinfo
            simp only [List.mem_map] at hp
            obtain ⟨sp, hsp, rfl⟩ := hp
            exact ⟨rfl, rfl⟩
  refine ⟨part1, ?_⟩
  intro className props htrace gp hgp
  by_cases hname : splitPop '/' request.pathname = ""
  · simp [GET, hname] at htrace
  · cases hres : (getCollections schemaFetch agg).1 with
    | error msg => simp [GET, hname, hres] at htrace
    | ok collections =>
        cases hfind : collections.find?
            (fun c => c.name = splitPop '/' request.pathname) with
        | none => simp [GET, hname, hres, hfind] at htrace
        | some collectionInfo =>
            have hmem : collectionInfo ∈ collections :=
              List.mem_of_find?_eq_some hfind
            have hprops := part1 collections hres collectionInfo hmem
            have htrace2 : props = collectionInfo.properties.map
                (fun prop => GetProperty.mk prop.name (prop.dataType.getD ["string"])) := by
              cases hdata : getCollectionData (splitPop '/' request.pathname)
                  (collectionInfo.properties.map
                    (fun prop => GetProperty.mk prop.name (prop.dataType.getD ["string"])))
                  exec with
              | ok data =>
                  simp [GET, hname, hres, hfind, hdata] at htrace
                  exact htrace.2.symm
              | error msg =>
                  simp [GET, hname, hres, hfind, hdata] at htrace
                  exact htrace.2.symm
            rw [htrace2] at hgp
            simp only [List.mem_map] at hgp
            obtain ⟨prop, hprop, rfl⟩ := hgp
            have hnone := (hprops prop hprop).2
            simp [hnone]

/-- Schema declaring one class `C` with one property `p` (for the C9
witness). -/
def schemaOneProp : WeaviateSchemaResponse := ⟨some [⟨"C", none, some [⟨"p"⟩]⟩]⟩

/-- Request for `/api/collection/C` (for the C9 witness). -/
def reqC : NextRequest := ⟨"http://localhost:3000", "/api/collection/C", "", []⟩

/-- Witness for C9 at a concrete schema and request: the catalog entry's
property carries `none`/`none`, and the GET handler passes
`dataType = ["string"]`. -/
theorem collections_properties_name_only_witness :
    (({ name := "p" } : PropertyInfo).description = none ∧
      ({ name := "p" } : PropertyInfo).dataType = none) ∧
    (GetProperty.mk "p" ["string"]).dataType = ["string"] :=
  ⟨(collections_properties_name_only (.response true "OK" schemaOneProp)
        aggNull reqC execEmptyGet).1
      [⟨"C", none, 0, [{ name := "p" }]⟩] rfl
      ⟨"C", none, 0, [{ name := "p" }]⟩ (by simp) { name := "p" } (by simp),
   (collections_properties_name_only (.response true "OK" schemaOneProp)
        aggNull reqC execEmptyGet).2
      "C" [GetProperty.mk "p" ["string"]] rfl
      (GetProperty.mk "p" ["string"]) (by simp)⟩

/-! Lemmas about the embedded JavaScript split -/

/-- The embedded split never yields an empty array. -/
theorem splitChars_ne_nil (sep : Char) (l : List Char) : splitChars sep l ≠ [] := by
  cases l with
  | nil => simp [splitChars]
  | cons c cs =>
      simp only [splitChars]
      split <;> simp

/-- A separator-free list splits into the single chunk that is the list
itself. -/
theorem splitChars_of_not_mem (sep : Char) (l : List Char) (h : sep ∉ l) :
    splitChars sep l = [l] := by
  induction l with
  | nil => rfl
  | cons c cs ih =>
      simp only [List.mem_cons, not_or] at h
      obtain ⟨h1, h2⟩ := h
      simp only [splitChars, ih h2]
      rw [if_neg (fun hc => h1 hc.symm)]
      simp

/-- The last chunk of the embedded split (what `split(sep).pop()` yields, at
the character-list level). -/
def lastChunk (sep : Char) (l : List Char) : List Char :=
  (splitChars sep l).getLastD []

/-- The last chunk of the empty list is empty. -/
theorem lastChunk_nil (sep : Char) : lastChunk sep [] = [] := rfl

/-- A leading separator does not change the last chunk. -/
theorem lastChunk_cons_sep (sep : Char) (cs : List Char) :
    lastChunk sep (sep :: cs) = lastChunk sep cs := by
  simp only [lastChunk, splitChars, eq_self_iff_true, if_true]
  rw [List.getLastD_cons]

/-- A list containing the separator splits into at least two chunks. -/
theorem two_le_splitChars_length (sep : Char) (l : List Char) (h : sep ∈ l) :
    2 ≤ (splitChars sep l).length := by
  induction l with
  | nil => simp at h
  | cons c cs ih =>
      simp only [splitChars]
      by_cases hc : c = sep
      · rw [if_pos hc]
        have h1 : 0 < (splitChars sep cs).length :=
          List.length_pos.mpr (splitChars_ne_nil sep cs)
        simp only [List.length_cons]
        omega
      · rw [if_neg hc]
        have hmem : sep ∈ cs := by
          rcases List.mem_cons.mp h with h1 | h2
          · exact absurd h1.symm hc
          · exact h2
        have h2 := ih hmem
        simp only [List.length_cons, List.length_tail]
        omega

/-- A leading non-separator character does not change the last chunk when a
separator occurs later. -/
theorem lastChunk_cons_of_mem (sep c : Char) (cs : List Char)
    (hc : ¬ c = sep) (h : sep ∈ cs) :
    lastChunk sep (c :: cs) = lastChunk sep cs := by
  have h2 := two_le_splitChars_length sep cs h
  rcases hr : splitChars sep cs with _ | ⟨a, t⟩
  · exact absurd hr (splitChars_ne_nil sep cs)
  · cases t with
    | nil => rw [hr] at h2; simp at h2
    | cons b t2 =>
        simp only [lastChunk, splitChars, if_neg hc, hr]
        simp only [List.headD_cons, List.tail_cons]
        simp only [List.getLastD_cons]

/-- The last chunk of a separator-free list is the list itself. -/
theorem lastChunk_of_not_mem (sep : Char) (l : List Char) (h : sep ∉ l) :
    lastChunk sep l = l := by
  simp [lastChunk, splitChars_of_not_mem sep l h]

/-- Appending a separator-free suffix extends the last chunk by that
suffix. -/
theorem lastChunk_append_of_not_mem (sep : Char) (l1 l2 : List Char)
    (h : sep ∉ l2) :
    lastChunk sep (l1 ++ l2) = lastChunk sep l1 ++ l2 := by
  induction l1 with
  | nil => simp [lastChunk_of_not_mem sep l2 h, lastChunk_nil]
  | cons c cs ih =>
      by_cases hc : c = sep
      · subst hc
        rw [List.cons_append, lastChunk_cons_sep, lastChunk_cons_sep, ih]
      · by_cases hm : sep ∈ cs
        · have hm2 : sep ∈ cs ++ l2 := List.mem_append_left _ hm
          rw [List.cons_append, lastChunk_cons_of_mem sep c _ hc hm2,
              lastChunk_cons_of_mem sep c cs hc hm, ih]
        · have hall : sep ∉ c :: cs := by
            simp only [List.mem_cons, not_or]
            exact ⟨fun h1 => hc h1.symm, hm⟩
          have hall2 : sep ∉ (c :: cs) ++ l2 := by
            simp only [List.mem_append, not_or]
            exact ⟨hall, h⟩
          rw [lastChunk_of_not_mem sep _ hall2, lastChunk_of_not_mem sep _ hall]

/-- A prefix before a suffix containing the separator does not change the
last chunk. -/
theorem lastChunk_append_of_mem (sep : Char) (l1 l2 : List Char) (h : sep ∈ l2) :
    lastChunk sep (l1 ++ l2) = lastChunk sep l2 := by
  induction l1 with
  | nil => simp
  | cons c cs ih =>
      by_cases hc : c = sep
      · subst hc
        rw [List.cons_append, lastChunk_cons_sep, ih]
      · have hm : sep ∈ cs ++ l2 := List.mem_append_right _ h
        rw [List.cons_append, lastChunk_cons_of_mem sep c _ hc hm, ih]

/-- Packaging chunks as strings commutes with taking the last chunk. -/
theorem getLastD_map_mk (L : List (List Char)) :
    (L.map String.mk).getLastD "" = String.mk (L.getLastD []) := by
  induction L with
  | nil => rfl
  | cons a t ih =>
      cases t with
      | nil => rfl
      | cons b t2 =>
          rw [List.map_cons, List.getLastD_cons, List.getLastD_cons]
          rw [getLastD_irrel ((b :: t2).map String.mk) (by simp) (String.mk a) ""]
          rw [ih]
          rw [getLastD_irrel (b :: t2) (by simp) ([] : List Char) a]

/-- The string-level `split(sep).pop()` equals the character-level last
chunk. -/
theorem splitPop_eq_lastChunk (sep : Char) (s : String) :
    splitPop sep s = String.mk (lastChunk sep s.data) := by
  unfold splitPop jsSplit lastChunk
  exact getLastD_map_mk (splitChars sep s.data)

/-- Appending strings appends their character data. -/
theorem string_data_append (s t : String) : (s ++ t).data = s.data ++ t.data := rfl

/-- Packaging appended character data yields the appended strings. -/
theorem string_mk_append (a b : List Char) :
    String.mk (a ++ b) = String.mk a ++ String.mk b := rfl

/-- Packaging a string's character data yields the string back. -/
theorem string_mk_data (s : String) : String.mk s.data = s := rfl

/-- C10: the DELETE handler splits the full request URL, so when the URL
carries a query string the name passed to `deleteCollection` is the last
path segment with the query string appended; the GET handler, by contrast,
splits only the URL pathname (its outcome is invariant under the host part,
and it never sees the raw query string beyond the parsed parameters). -/
theorem DELETE_name_includes_query (request : NextRequest)
    (del : String → Except String Unit)
    (schemaFetch : FetchOutcome WeaviateSchemaResponse)
    (agg : String → Except String (Option AggregateResponse))
    (exec : String → Except String (Option ExecResponse))
    (hq : request.search ≠ "")
    (hqs : '/' ∉ request.search.data)
    (hp : '/' ∈ request.pathname.data) :
    (DELETE request.url del).2
      = some (splitPop '/' request.pathname ++ request.search) ∧
    ∀ scheme_host2 : String,
      GET ⟨scheme_host2, request.pathname, request.search, request.searchParams⟩
          schemaFetch agg exec
        = GET request schemaFetch agg exec := by
  have hurl : (request.url).data
      = (request.scheme_host.data ++ request.pathname.data) ++ request.search.data := by
    simp [NextRequest.url, string_data_append, List.append_assoc]
  have hlast : lastChunk '/' (request.url).data
      = lastChunk '/' request.pathname.data ++ request.search.data := by
    rw [hurl, lastChunk_append_of_not_mem '/' _ _ hqs,
        lastChunk_append_of_mem '/' _ _ hp]
  have hname : splitPop '/' request.url
      = splitPop '/' request.pathname ++ request.search := by
    rw [splitPop_eq_lastChunk, splitPop_eq_lastChunk, hlast,
        string_mk_append, string_mk_data]
  have hne2 : splitPop '/' request.pathname ++ request.search ≠ "" := by
    intro hcontra
    have hdata : (splitPop '/' request.pathname).data ++ request.search.data = [] := by
      have := congrArg String.data hcontra
      simpa [string_data_append] using this
    have hsearch : request.search.data = [] := (List.append_eq_nil.mp hdata).2
    exact hq (by rw [← string_mk_data request.search, hsearch])
  constructor
  · simp only [DELETE, hname, if_neg hne2]
    cases hdel : del (splitPop '/' request.pathname ++ request.search) <;> simp [hdel]
  · intro scheme_host2
    rfl

/-- Request for `DELETE /api/collection/Foo?x=1` (for the C10 witness). -/
def reqFooQuery : NextRequest :=
  ⟨"http://localhost:3000", "/api/collection/Foo", "?x=1", [("x", "1")]⟩

/-- Witness for C10 at a concrete request: the name passed to
`deleteCollection` is `Foo?x=1`, query string included. -/
theorem DELETE_name_includes_query_witness :
    (reqFooQuery.search ≠ "" ∧ '/' ∉ reqFooQuery.search.data ∧
      '/' ∈ reqFooQuery.pathname.data) ∧
    (DELETE reqFooQuery.url delOk).2 = some "Foo?x=1" := by
  refine ⟨⟨by decide, by decide, by decide⟩, ?_⟩
  have h := (DELETE_name_includes_query reqFooQuery delOk
      (.response true "OK" schemaEmpty) aggNull execEmptyGet
      (by decide) (by decide) (by decide)).1
  exact h

end Wvsee
